import Mathlib

/-!
Verification of the Vulkan graph/dispatch/indexing subsystem slice:
int8x4 staging conversions, the elementwise where operator (buffer and
texture kernel variants), the where resize callback, and the int8x4
staging node builders.

Tensors are modelled with dimension sizes listed fastest-varying first
(WHCN order), matching the coordinate pattern of the shaders. Machine
integers are modelled as Nat; bit packing uses explicit shifts and masks.
-/

namespace VkCompute

/-! ## Indexing module -/

/-- Modelled from the spec: `linear_idx_to_tensor_idx` from `indexing.glslh`
(not under `src/`). Inverse of row-major flattening with dimension 0
fastest-varying, matching the coordinate pattern used by the
`int8x4_buffer_to_nchw` shader (`w = i % W`, `h = (i / W) % H`, ...). -/
def linear_idx_to_tensor_idx : List Nat → Nat → List Nat
  | [], _ => []
  | s :: rest, i => (i % s) :: linear_idx_to_tensor_idx rest (i / s)

/-- Modelled from the spec: `tensor_idx_to_linear_idx` from `indexing.glslh`
(not under `src/`). Forward row-major flattening, dimension 0
fastest-varying. -/
def tensor_idx_to_linear_idx : List Nat → List Nat → Nat
  | s :: rest, x :: xs => x + s * tensor_idx_to_linear_idx rest xs
  | _, _ => 0

/-- Modelled from the spec: `clamp_tensor_idx` from `indexing.glslh` (not
under `src/`). Broadcast semantics: clamps each dimension of `idx` to
`min(idx[d], size[d]-1)`. -/
def clamp_tensor_idx (sizes idx : List Nat) : List Nat :=
  List.zipWith (fun x s => min x (s - 1)) idx sizes

/-- Logical element count of a tensor: product of its dimension sizes. -/
def numel (sizes : List Nat) : Nat := sizes.prod

/-! ## int8x4 staging conversions (§4.2) -/

/-- NCHW linear index to WHCN tensor4D coordinates, exactly as computed in
the `int8x4_buffer_to_nchw` shader (`src/unnamed/part_001`):
`w = i % W; h = (i / W) % H; c = (i / (W*H)) % C; n = i / (W*H*C)`. -/
def nchw_idx_to_tidx (w h c : Nat) (i : Nat) : List Nat :=
  [i % w, (i / w) % h, (i / (w * h)) % c, i / (w * h * c)]

/-- Modelled from the spec: `tensor4d_idx_to_buf_idx` from `indexing.glslh`
(not under `src/`). For the contiguous layout (`CONTIG_LAYOUT_INT`) this is
row-major WHCN flattening; the resulting linear element index `e` locates
packed storage as int32 slot `e / 4` with byte offset `(e % 4) * 8`
(spec §4.1). -/
def tensor4d_idx_to_buf_idx (sizes tidx : List Nat) : Nat :=
  tensor_idx_to_linear_idx sizes tidx

/-- One byte of staging data; reads beyond the logical range are zero
(padding lanes are zero-filled on upload). -/
def stagingByte (x : List Nat) (e : Nat) : Nat := x.getD e 0

/-- Modelled from the spec: the `nchw_to_int8x4_buffer` shader (not under
`src/`). Upload direction (§4.2): each packed int32 slot gathers the 4
logical elements whose contiguous buffer element index `e` satisfies
`e / 4 = slot`, bit-packing `slot = Σ byte_j << (8*j)`; tail lanes beyond
the logical element count are zero-filled. For the contiguous layout the
buffer element index equals the NCHW linear index. -/
def nchw_to_int8x4_buffer (x : List Nat) (numSlots : Nat) : List Nat :=
  (List.range numSlots).map fun s =>
    stagingByte x (4 * s) |||
    (stagingByte x (4 * s + 1) <<< 8) |||
    (stagingByte x (4 * s + 2) <<< 16) |||
    (stagingByte x (4 * s + 3) <<< 24)

/-- Byte extraction from the packed int8x4 device buffer, from the
`int8x4_buffer_to_nchw` shader:
`(t_inp[elem_buf_idx / 4] >> ((elem_buf_idx % 4) * 8)) & 0xFF`. -/
def int8x4_extract (t_inp : List Nat) (elem_buf_idx : Nat) : Nat :=
  (t_inp.getD (elem_buf_idx / 4) 0 >>> ((elem_buf_idx % 4) * 8)) &&& 0xFF

/-- The unrolled packing loop of the `int8x4_buffer_to_nchw` shader,
parameterized by the per-element byte extraction `byte`. Iterates `j`
upwards with `fuel` remaining iterations, accumulating
`output_int32 |= int8_val << (j * 8)` and breaking at the first
`nchw_idx >= total_numel`. -/
def int8x4_word_go (byte : Nat → Nat) (total k : Nat) :
    Nat → Nat → Nat → Nat
  | 0, _, acc => acc
  | fuel + 1, j, acc =>
    if 4 * k + j < total then
      int8x4_word_go byte total k fuel (j + 1)
        (acc ||| (byte (4 * k + j) <<< (j * 8)))
    else acc

/-- The output int32 assembled by thread `k` of the
`int8x4_buffer_to_nchw` shader: 4 consecutive NCHW bytes, each located via
`nchw_idx_to_tidx` and `tensor4d_idx_to_buf_idx` and extracted with
`int8x4_extract`. -/
def int8x4_buffer_to_nchw_word (w h c n : Nat) (t_inp : List Nat)
    (k : Nat) : Nat :=
  int8x4_word_go
    (fun nchw_idx => int8x4_extract t_inp
      (tensor4d_idx_to_buf_idx [w, h, c, n] (nchw_idx_to_tidx w h c nchw_idx)))
    (w * h * c * n) k 4 0 0

/-- One invocation of the `int8x4_buffer_to_nchw` shader
(`src/unnamed/part_001`): thread `out_int32_idx` bounds-checks against
`num_out_int32s = (total_numel + 3) / 4` and writes exactly
`nchw_out[out_int32_idx]`. -/
def int8x4_buffer_to_nchw_invocation (w h c n : Nat)
    (t_inp nchw_out : List Nat) (out_int32_idx : Nat) : List Nat :=
  if (w * h * c * n + 3) / 4 ≤ out_int32_idx then nchw_out
  else nchw_out.set out_int32_idx
    (int8x4_buffer_to_nchw_word w h c n t_inp out_int32_idx)

/-! ## Where operator, buffer storage variant (§4.3)

From the `where` shader, buffer variant (`USING_BUFFER` branch of the
shader fragment stored at `src/tools/cmake/preset/arm_ethosu_linux.cmake`).
Each metadata UBO is represented by its sizes list; condition elements are
Nat (unsigned bool storage), data elements are Int. -/

/-- Modelled from the spec: the `out_of_bounds` entry check for linear
buffer indices from `indexing.glslh` (not under `src/`): a linear index is
out of bounds when it is at or beyond the logical element count. -/
def out_of_bounds_linear (bufi : Nat) (sizes : List Nat) : Bool :=
  numel sizes ≤ bufi

/-- One invocation of the `where` shader, buffer variant: bounds check,
coordinate recovery, per-operand broadcast clamp, three fetches, one
conditional write to `t_out[out_bufi]`. -/
def where_buffer_invocation (outSizes condSizes selfSizes otherSizes : List Nat)
    (t_condition : List Nat) (t_self t_other : List Int)
    (t_out : List Int) (out_bufi : Nat) : List Int :=
  if out_of_bounds_linear out_bufi outSizes then t_out
  else
    let out_tidx := linear_idx_to_tensor_idx outSizes out_bufi
    let cond_tidx := clamp_tensor_idx condSizes out_tidx
    let self_tidx := clamp_tensor_idx selfSizes out_tidx
    let other_tidx := clamp_tensor_idx otherSizes out_tidx
    let cond_bufi := tensor_idx_to_linear_idx condSizes cond_tidx
    let self_bufi := tensor_idx_to_linear_idx selfSizes self_tidx
    let other_bufi := tensor_idx_to_linear_idx otherSizes other_tidx
    let cond := t_condition.getD cond_bufi 0
    let v_self := t_self.getD self_bufi 0
    let v_other := t_other.getD other_bufi 0
    if cond > 0 then t_out.set out_bufi v_self
    else t_out.set out_bufi v_other

/-- A full dispatch of the buffer `where` kernel: the invocation grid runs
one invocation per global index `0 .. grid-1`. -/
def where_buffer_dispatch (outSizes condSizes selfSizes otherSizes : List Nat)
    (t_condition : List Nat) (t_self t_other : List Int)
    (t_out : List Int) (grid : Nat) : List Int :=
  (List.range grid).foldl
    (where_buffer_invocation outSizes condSizes selfSizes otherSizes
      t_condition t_self t_other) t_out

/-- Reference semantics written from the spec's words (§4.3): the broadcast
read of an operand supplies its single element (index 0) along every
dimension of size 1. -/
def broadcast_tensor_idx (sizes idx : List Nat) : List Nat :=
  List.zipWith (fun x s => if s = 1 then 0 else x) idx sizes

/-- Reference semantics written from the spec's words (§4.3):
`out[i] = self[i] if condition[i] else other[i]` under standard
size-1-dimension broadcasting, with a truthy (non-zero) condition. -/
def where_ref_elem (outSizes condSizes selfSizes otherSizes : List Nat)
    (t_condition : List Nat) (t_self t_other : List Int) (i : Nat) : Int :=
  let idx := linear_idx_to_tensor_idx outSizes i
  if t_condition.getD
      (tensor_idx_to_linear_idx condSizes (broadcast_tensor_idx condSizes idx)) 0 ≠ 0
  then t_self.getD
      (tensor_idx_to_linear_idx selfSizes (broadcast_tensor_idx selfSizes idx)) 0
  else t_other.getD
      (tensor_idx_to_linear_idx otherSizes (broadcast_tensor_idx otherSizes idx)) 0

/-! ## Where operator, texture storage variant -/

/-- Texture metadata: WHCN sizes (length 4) and the packed dimension
index. -/
structure TextureMetadata where
  sizes : List Nat
  packed_dim : Nat
deriving DecidableEq

/-- Texel fetch: a texture is a map from an integer position to a
4-component texel. -/
def texel_at {α : Type} (tex : Nat → Nat → Nat → List α)
    (p : Nat × Nat × Nat) : List α :=
  tex p.1 p.2.1 p.2.2

/-- Extent of the folded z axis of the texture backing a 4D tensor: the
packed dimension is divided into groups of 4. -/
def tex_z_extent (meta : TextureMetadata) : Nat :=
  if meta.packed_dim = 2 then (meta.sizes.getD 2 0 + 3) / 4
  else meta.sizes.getD 2 0

/-- Modelled from the spec: `texture_pos_to_tensor4d_idx_simple` from
`indexing.glslh` (not under `src/`). The spec fixes only the packed-dim
resolution (4 components per texel); we model the simple mapping where pos
x and y address dims 0 and 1, pos z folds dims 2 and 3, and the packed
dimension's coordinate is the texel group index times 4. -/
def texture_pos_to_tensor4d_idx_simple (meta : TextureMetadata)
    (pos : Nat × Nat × Nat) : List Nat :=
  let zext := tex_z_extent meta
  let base := [pos.1, pos.2.1, pos.2.2 % zext, pos.2.2 / zext]
  base.set meta.packed_dim (base.getD meta.packed_dim 0 * 4)

/-- Modelled from the spec: `tensor4d_idx_to_texture_element_idx_simple`
from `indexing.glslh` (not under `src/`): resolves which of the 4 vector
components within a texel holds a given packed-dimension coordinate
(group `tidx[pd] / 4`, component `tidx[pd] % 4`), inverse of the simple
pos mapping. -/
def tensor4d_idx_to_texture_element_idx_simple (meta : TextureMetadata)
    (tidx : List Nat) : (Nat × Nat × Nat) × Nat :=
  let comp := tidx.getD meta.packed_dim 0 % 4
  let q := tidx.set meta.packed_dim (tidx.getD meta.packed_dim 0 / 4)
  ((q.getD 0 0, q.getD 1 0, q.getD 2 0 + tex_z_extent meta * q.getD 3 0), comp)

/-- Modelled from the spec: the `out_of_bounds` entry check for texture
positions from `indexing.glslh` (not under `src/`): each pos axis must lie
below the texture extent on that axis. -/
def out_of_bounds_pos (pos : Nat × Nat × Nat) (meta : TextureMetadata) : Bool :=
  let ext0 := if meta.packed_dim = 0 then (meta.sizes.getD 0 0 + 3) / 4
              else meta.sizes.getD 0 0
  let ext1 := if meta.packed_dim = 1 then (meta.sizes.getD 1 0 + 3) / 4
              else meta.sizes.getD 1 0
  let ext2 := tex_z_extent meta * meta.sizes.getD 3 0
  !(pos.1 < ext0 && pos.2.1 < ext1 && pos.2.2 < ext2)

/-- The loop body of the `where` shader, texture variant: for one lane, the
broadcast clamp `min(out_tidx.data, sizes - 1)` is recomputed from this
lane's `out_tidx` for each operand, each operand's texel element is
resolved and fetched, and the truthy (non-zero) condition selects the self
or other component. -/
def where_texture_lane_value (condp selfp otherp : TextureMetadata)
    (t_condition : Nat → Nat → Nat → List Nat)
    (t_self t_other : Nat → Nat → Nat → List Int)
    (out_tidx : List Nat) : Int :=
  let cond_tidx := clamp_tensor_idx condp.sizes out_tidx
  let cond_elem := tensor4d_idx_to_texture_element_idx_simple condp cond_tidx
  let cond_val := (texel_at t_condition cond_elem.1).getD cond_elem.2 0
  let self_tidx := clamp_tensor_idx selfp.sizes out_tidx
  let self_elem := tensor4d_idx_to_texture_element_idx_simple selfp self_tidx
  let self_texel := texel_at t_self self_elem.1
  let other_tidx := clamp_tensor_idx otherp.sizes out_tidx
  let other_elem := tensor4d_idx_to_texture_element_idx_simple otherp other_tidx
  let other_texel := texel_at t_other other_elem.1
  if cond_val > 0 then self_texel.getD self_elem.2 0
  else other_texel.getD other_elem.2 0

/-- The component loop of the `where` shader, texture variant:
`for (comp = 0; comp < limit; comp++)` with `fuel = limit - comp`
remaining iterations; each iteration assigns `outtex[comp]` and increments
`out_tidx.data[outp.packed_dim]`. -/
def where_texture_go (outp condp selfp otherp : TextureMetadata)
    (t_condition : Nat → Nat → Nat → List Nat)
    (t_self t_other : Nat → Nat → Nat → List Int) :
    Nat → Nat → List Nat → List Int → List Int
  | 0, _, _, outtex => outtex
  | fuel + 1, comp, out_tidx, outtex =>
    where_texture_go outp condp selfp otherp t_condition t_self t_other
      fuel (comp + 1)
      (out_tidx.set outp.packed_dim (out_tidx.getD outp.packed_dim 0 + 1))
      (outtex.set comp
        (where_texture_lane_value condp selfp otherp t_condition t_self t_other
          out_tidx))

/-- One invocation of the `where` shader, texture variant: bounds check,
`outtex` initialized to `VEC4_T(0)`, loop up to
`limit = min(4, sizes[packed_dim] - out_tidx[packed_dim])`, and one
whole-texel `imageStore` at `out_pos`. Returns `none` on the early
out-of-bounds return, otherwise the stored position and texel. -/
def where_texture_invocation (outp condp selfp otherp : TextureMetadata)
    (t_condition : Nat → Nat → Nat → List Nat)
    (t_self t_other : Nat → Nat → Nat → List Int)
    (pos : Nat × Nat × Nat) : Option ((Nat × Nat × Nat) × List Int) :=
  if out_of_bounds_pos pos outp then none
  else
    let out_tidx := texture_pos_to_tensor4d_idx_simple outp pos
    let limit := min 4
      (outp.sizes.getD outp.packed_dim 0 - out_tidx.getD outp.packed_dim 0)
    some (pos,
      where_texture_go outp condp selfp otherp t_condition t_self t_other
        limit 0 out_tidx (List.replicate 4 0))

/-! ## Compute graph model: tensors, nodes, resize, builders -/

/-- Element dtypes; `kInt8x4` is the packed int8 kind. -/
inductive VkDtype where
  | kFloat
  | kHalf
  | kChar
  | kInt8x4
deriving DecidableEq

/-- One tensor record of the graph-owned tensor table: shape metadata,
dtype, and backing contents. -/
structure TensorRecord where
  sizes : List Int
  dtype : VkDtype
  data : List Int
deriving DecidableEq

/-- Default tensor record used for out-of-table reads. -/
def defaultTensor : TensorRecord := { sizes := [], dtype := .kFloat, data := [] }

/-- A scheduled node: kernel name plus write/read operand references. -/
structure NodeDesc where
  kernelName : String
  writeRefs : List Nat
  readRefs : List Nat
deriving DecidableEq

/-- Modelled from the spec: the `ComputeGraph` slice relevant here (class
not under `src/`): the graph owns a dense tensor table and the ordered
prepack and execute node lists; nodes hold `ValueRef` indices (Nat). -/
structure ComputeGraph where
  tensors : List TensorRecord
  prepackNodes : List NodeDesc
  executeNodes : List NodeDesc
deriving DecidableEq

def sizes_of (g : ComputeGraph) (r : Nat) : List Int :=
  (g.tensors.getD r defaultTensor).sizes

def dtype_of (g : ComputeGraph) (r : Nat) : VkDtype :=
  (g.tensors.getD r defaultTensor).dtype

def dim_of (g : ComputeGraph) (r : Nat) : Nat :=
  (sizes_of g r).length

/-- Modelled from the spec: `ComputeGraph::virtual_resize` (not under
`src/`): updates only the shape metadata of the referenced tensor; backing
storage, dtype, and every node list are untouched. -/
def virtual_resize (g : ComputeGraph) (r : Nat) (newSizes : List Int) :
    ComputeGraph :=
  match g.tensors[r]? with
  | some t => { g with tensors := g.tensors.set r { t with sizes := newSizes } }
  | none => g

/-- The where node's resize callback (`resize_where_node` in
`src/unnamed/part_001`): forces the output tensor's shape to the self
operand's current shape via `virtual_resize`. In the source, `out` is
`args.at(0).refs.at(0)` and `self` is `args.at(1).refs.at(1)`. -/
def resize_where_node (g : ComputeGraph) (out self : Nat) : ComputeGraph :=
  virtual_resize g out (sizes_of g self)

/-- `add_prepack_int8x4_buffer_node` from `Int8x4Staging.cpp`: validates
`dtype == kInt8x4` and `dim <= 4` (each a `VK_CHECK_COND`, fatal to graph
construction) before appending the prepack node. -/
def add_prepack_int8x4_buffer_node (g : ComputeGraph)
    (tensor_data tensor : Nat) : Except String ComputeGraph :=
  if dtype_of g tensor ≠ VkDtype.kInt8x4 then
    .error "VK_CHECK_COND failed: dtype_of(tensor) == kInt8x4"
  else if 4 < dim_of g tensor then
    .error "VK_CHECK_COND failed: dim_of(tensor) <= 4"
  else
    .ok { g with prepackNodes := g.prepackNodes ++
      [{ kernelName := "nchw_to_int8x4_buffer",
         writeRefs := [tensor], readRefs := [tensor_data] }] }

/-- `add_staging_to_int8x4_buffer_node` from `Int8x4Staging.cpp`: same
validation, then appends an execute node running `nchw_to_int8x4_buffer`. -/
def add_staging_to_int8x4_buffer_node (g : ComputeGraph)
    (in_staging tensor : Nat) : Except String ComputeGraph :=
  if dtype_of g tensor ≠ VkDtype.kInt8x4 then
    .error "VK_CHECK_COND failed: dtype_of(tensor) == kInt8x4"
  else if 4 < dim_of g tensor then
    .error "VK_CHECK_COND failed: dim_of(tensor) <= 4"
  else
    .ok { g with executeNodes := g.executeNodes ++
      [{ kernelName := "nchw_to_int8x4_buffer",
         writeRefs := [tensor], readRefs := [in_staging] }] }

/-- `add_int8x4_buffer_to_staging_node` from `Int8x4Staging.cpp`: same
validation, then appends an execute node running `int8x4_buffer_to_nchw`. -/
def add_int8x4_buffer_to_staging_node (g : ComputeGraph)
    (tensor staging_data : Nat) : Except String ComputeGraph :=
  if dtype_of g tensor ≠ VkDtype.kInt8x4 then
    .error "VK_CHECK_COND failed: dtype_of(tensor) == kInt8x4"
  else if 4 < dim_of g tensor then
    .error "VK_CHECK_COND failed: dim_of(tensor) <= 4"
  else
    .ok { g with executeNodes := g.executeNodes ++
      [{ kernelName := "int8x4_buffer_to_nchw",
         writeRefs := [staging_data], readRefs := [tensor] }] }

/-! ## Helper lemmas: bit packing arithmetic -/

theorem lor_shiftLeft_eq_add {a b n : Nat} (h : a < 2 ^ n) :
    a ||| (b <<< n) = a + 2 ^ n * b := by
  rw [Nat.shiftLeft_eq, Nat.lor_comm, Nat.mul_comm b (2 ^ n)]
  rw [← Nat.mul_add_lt_is_or h b]
  omega

theorem buf_idx_roundtrip (w h c n i : Nat) :
    tensor4d_idx_to_buf_idx [w, h, c, n] (nchw_idx_to_tidx w h c i) = i := by
  unfold tensor4d_idx_to_buf_idx nchw_idx_to_tidx
  simp only [tensor_idx_to_linear_idx]
  have e1 : i / (w * h) = i / w / h := (Nat.div_div_eq_div_mul i w h).symm
  have e2 : i / (w * h * c) = i / w / h / c := by
    rw [Nat.div_div_eq_div_mul, Nat.div_div_eq_div_mul, ← Nat.mul_assoc]
  rw [e1, e2, Nat.mul_zero, Nat.add_zero, Nat.mod_add_div, Nat.mod_add_div,
    Nat.mod_add_div]

theorem stagingByte_lt {x : List Nat} (hx : ∀ b ∈ x, b < 256) (e : Nat) :
    stagingByte x e < 256 := by
  unfold stagingByte
  rw [List.getD_eq_getElem?_getD]
  rcases Nat.lt_or_ge e x.length with h | h
  · rw [List.getElem?_eq_getElem h]
    exact hx _ (List.getElem_mem h)
  · rw [List.getElem?_eq_none h]
    simp

theorem nchw_to_int8x4_getD {x : List Nat} {numSlots s : Nat}
    (h : s < numSlots) :
    (nchw_to_int8x4_buffer x numSlots).getD s 0 =
      stagingByte x (4 * s) ||| (stagingByte x (4 * s + 1) <<< 8) |||
      (stagingByte x (4 * s + 2) <<< 16) |||
      (stagingByte x (4 * s + 3) <<< 24) := by
  unfold nchw_to_int8x4_buffer
  have hlen : s < ((List.range numSlots).map fun t =>
      stagingByte x (4 * t) ||| (stagingByte x (4 * t + 1) <<< 8) |||
      (stagingByte x (4 * t + 2) <<< 16) |||
      (stagingByte x (4 * t + 3) <<< 24)).length := by
    simpa using h
  rw [List.getD_eq_getElem?_getD, List.getElem?_eq_getElem hlen]
  simp

theorem packWord_extract {b0 b1 b2 b3 : Nat} (h0 : b0 < 256) (h1 : b1 < 256)
    (h2 : b2 < 256) (h3 : b3 < 256) {r : Nat} (hr : r < 4) :
    ((b0 ||| (b1 <<< 8) ||| (b2 <<< 16) ||| (b3 <<< 24)) >>> (r * 8)) &&& 0xFF =
      [b0, b1, b2, b3].getD r 0 := by
  have hv : b0 ||| (b1 <<< 8) ||| (b2 <<< 16) ||| (b3 <<< 24) =
      b0 + 256 * b1 + 65536 * b2 + 16777216 * b3 := by
    rw [lor_shiftLeft_eq_add (show b0 < 2 ^ 8 by norm_num; omega)]
    rw [lor_shiftLeft_eq_add (show b0 + 2 ^ 8 * b1 < 2 ^ 16 by norm_num; omega)]
    rw [lor_shiftLeft_eq_add
      (show b0 + 2 ^ 8 * b1 + 2 ^ 16 * b2 < 2 ^ 24 by norm_num; omega)]
    norm_num
  rw [hv, Nat.shiftRight_eq_div_pow,
    show (0xFF : Nat) = 2 ^ 8 - 1 by norm_num, Nat.and_pow_two_sub_one_eq_mod]
  interval_cases r <;> norm_num <;> omega

theorem int8x4_extract_pack {x : List Nat} (hx : ∀ b ∈ x, b < 256)
    {numSlots e : Nat} (he : e < 4 * numSlots) :
    int8x4_extract (nchw_to_int8x4_buffer x numSlots) e = stagingByte x e := by
  unfold int8x4_extract
  have hs : e / 4 < numSlots := by omega
  rw [nchw_to_int8x4_getD hs,
    packWord_extract (stagingByte_lt hx _) (stagingByte_lt hx _)
      (stagingByte_lt hx _) (stagingByte_lt hx _) (Nat.mod_lt e (by omega))]
  have hm : e % 4 = 0 ∨ e % 4 = 1 ∨ e % 4 = 2 ∨ e % 4 = 3 := by omega
  rcases hm with hm | hm | hm | hm <;>
    rw [hm] <;> simp <;> congr 1 <;> omega

/-- Reference value of the shader's byte-accumulation loop: the base-256
digits of the remaining in-range bytes. Proof-side companion of
`int8x4_word_go`. -/
def int8x4_word_ref (byte : Nat → Nat) (total k : Nat) : Nat → Nat → Nat
  | 0, _ => 0
  | fuel + 1, j =>
    if 4 * k + j < total then
      byte (4 * k + j) + 256 * int8x4_word_ref byte total k fuel (j + 1)
    else 0

theorem int8x4_word_go_eq (byte : Nat → Nat) (total k : Nat)
    (hb : ∀ e, byte e < 256) :
    ∀ fuel j acc, acc < 2 ^ (j * 8) →
      int8x4_word_go byte total k fuel j acc =
        acc + 2 ^ (j * 8) * int8x4_word_ref byte total k fuel j := by
  intro fuel
  induction fuel with
  | zero => intro j acc _; simp [int8x4_word_go, int8x4_word_ref]
  | succ fuel ih =>
    intro j acc hacc
    rw [int8x4_word_go, int8x4_word_ref]
    by_cases hcond : 4 * k + j < total
    · rw [if_pos hcond, if_pos hcond,
        lor_shiftLeft_eq_add hacc]
      have hpow : 2 ^ ((j + 1) * 8) = 2 ^ (j * 8) * 256 := by
        rw [show (j + 1) * 8 = j * 8 + 8 by ring, pow_add]; norm_num
      have hb' : byte (4 * k + j) ≤ 255 := by have := hb (4 * k + j); omega
      have hmul : 2 ^ (j * 8) * byte (4 * k + j) ≤ 2 ^ (j * 8) * 255 :=
        Nat.mul_le_mul_left _ hb'
      have hacc' : acc + 2 ^ (j * 8) * byte (4 * k + j) < 2 ^ ((j + 1) * 8) := by
        rw [hpow]; omega
      rw [ih (j + 1) _ hacc', hpow]
      ring
    · rw [if_neg hcond, if_neg hcond]; omega

theorem int8x4_word_ref_extract (byte : Nat → Nat) (total k : Nat)
    (hb : ∀ e, byte e < 256) :
    ∀ fuel j m, j ≤ m → m < j + fuel → 4 * k + m < total →
      int8x4_word_ref byte total k fuel j / 2 ^ ((m - j) * 8) % 256 =
        byte (4 * k + m) := by
  intro fuel
  induction fuel with
  | zero => intro j m h1 h2 _; omega
  | succ fuel ih =>
    intro j m h1 h2 h3
    have hcond : 4 * k + j < total := by omega
    rw [int8x4_word_ref, if_pos hcond]
    rcases Nat.eq_or_lt_of_le h1 with heq | hlt
    · subst heq
      have hbj := hb (4 * k + j)
      simp only [Nat.sub_self, Nat.zero_mul, pow_zero, Nat.div_one]
      omega
    · have hsub : (m - j) * 8 = ((m - (j + 1)) * 8) + 8 := by
        have : m - j = (m - (j + 1)) + 1 := by omega
        rw [this]; ring
      rw [hsub, pow_add, show (2 : Nat) ^ 8 = 256 by norm_num,
        Nat.mul_comm (2 ^ ((m - (j + 1)) * 8)) 256,
        ← Nat.div_div_eq_div_mul]
      have hbj := hb (4 * k + j)
      have hdiv : (byte (4 * k + j) +
          256 * int8x4_word_ref byte total k fuel (j + 1)) / 256 =
          int8x4_word_ref byte total k fuel (j + 1) := by omega
      rw [hdiv]
      exact ih (j + 1) m hlt (by omega) h3

/-- C1 helper: every byte extracted by the shader body is below 256. -/
theorem int8x4_extract_lt (t_inp : List Nat) (e : Nat) :
    int8x4_extract t_inp e < 256 := by
  unfold int8x4_extract
  have := Nat.and_le_right
    (n := t_inp.getD (e / 4) 0 >>> ((e % 4) * 8)) (m := 0xFF)
  omega

/-- C1: the unpack direction applied to the packed buffer produced by the
upload direction recovers every logical NCHW byte. -/
theorem int8x4_unpack_pack_byte (w h c n : Nat) (x : List Nat)
    (nchw_out : List Nat) (hx : ∀ b ∈ x, b < 256)
    (hout : nchw_out.length = (w * h * c * n + 3) / 4)
    (i : Nat) (hi : i < w * h * c * n) :
    ((int8x4_buffer_to_nchw_invocation w h c n
        (nchw_to_int8x4_buffer x ((w * h * c * n + 3) / 4)) nchw_out
        (i / 4)).getD (i / 4) 0 >>> ((i % 4) * 8)) &&& 0xFF =
      stagingByte x i := by
  have hk : i / 4 < (w * h * c * n + 3) / 4 := by omega
  unfold int8x4_buffer_to_nchw_invocation
  rw [if_neg (by omega)]
  have hklen : i / 4 < nchw_out.length := by omega
  rw [List.getD_eq_getElem?_getD, List.getElem?_set_self (by omega),
    Option.getD_some]
  unfold int8x4_buffer_to_nchw_word
  set B : Nat → Nat := fun nchw_idx => int8x4_extract
    (nchw_to_int8x4_buffer x ((w * h * c * n + 3) / 4))
    (tensor4d_idx_to_buf_idx [w, h, c, n] (nchw_idx_to_tidx w h c nchw_idx))
    with hB
  have hb : ∀ e, B e < 256 := fun e => int8x4_extract_lt _ _
  rw [int8x4_word_go_eq B (w * h * c * n) (i / 4) hb 4 0 0 (by norm_num)]
  rw [Nat.shiftRight_eq_div_pow,
    show (0xFF : Nat) = 2 ^ 8 - 1 by norm_num, Nat.and_pow_two_sub_one_eq_mod,
    show (2 : Nat) ^ 8 = 256 by norm_num]
  have hz : (0 : Nat) + 2 ^ (0 * 8) * int8x4_word_ref B (w * h * c * n)
      (i / 4) 4 0 = int8x4_word_ref B (w * h * c * n) (i / 4) 4 0 := by
    norm_num
  rw [hz]
  have hext := int8x4_word_ref_extract B (w * h * c * n) (i / 4) hb 4 0
    (i % 4) (by omega) (by omega) (by omega)
  rw [Nat.sub_zero] at hext
  have hidx : 4 * (i / 4) + i % 4 = i := by omega
  rw [hext, hidx]
  simp only [hB]
  rw [buf_idx_roundtrip]
  exact int8x4_extract_pack hx (by omega)

/-! ## Dispatch-level lemmas for the int8x4 download kernel -/

/-- A full dispatch of the `int8x4_buffer_to_nchw` kernel: one invocation
per output int32, grid size `num_out_int32s = (total_numel + 3) / 4`
(matching `int8x4_buffer_to_staging_global_wg_size` in
`Int8x4Staging.cpp`). -/
def int8x4_buffer_to_nchw_dispatch (w h c n : Nat)
    (t_inp nchw_out : List Nat) : List Nat :=
  (List.range ((w * h * c * n + 3) / 4)).foldl
    (int8x4_buffer_to_nchw_invocation w h c n t_inp) nchw_out

theorem int8x4_invocation_length (w h c n : Nat) (t_inp buf : List Nat)
    (j : Nat) :
    (int8x4_buffer_to_nchw_invocation w h c n t_inp buf j).length =
      buf.length := by
  unfold int8x4_buffer_to_nchw_invocation
  split <;> simp

theorem int8x4_invocation_getD_ne (w h c n : Nat) (t_inp buf : List Nat)
    {j k : Nat} (hjk : j ≠ k) :
    (int8x4_buffer_to_nchw_invocation w h c n t_inp buf j).getD k 0 =
      buf.getD k 0 := by
  unfold int8x4_buffer_to_nchw_invocation
  split
  · rfl
  · rw [List.getD_eq_getElem?_getD, List.getElem?_set_ne hjk,
      List.getD_eq_getElem?_getD]

theorem int8x4_foldl_getD_not_mem (w h c n : Nat) (t_inp : List Nat) :
    ∀ (l : List Nat) (buf : List Nat) (k : Nat), k ∉ l →
      ((l.foldl (int8x4_buffer_to_nchw_invocation w h c n t_inp) buf).getD
        k 0) = buf.getD k 0 := by
  intro l
  induction l with
  | nil => intro buf k _; rfl
  | cons a l ih =>
    intro buf k hk
    rw [List.foldl_cons, ih _ _ (fun hmem => hk (List.mem_cons_of_mem a hmem)),
      int8x4_invocation_getD_ne w h c n t_inp buf
        (by intro heq; exact hk (by rw [← heq]; exact List.mem_cons_self a l))]

theorem int8x4_foldl_length (w h c n : Nat) (t_inp : List Nat) :
    ∀ (l : List Nat) (buf : List Nat),
      (l.foldl (int8x4_buffer_to_nchw_invocation w h c n t_inp) buf).length =
        buf.length := by
  intro l
  induction l with
  | nil => intro buf; rfl
  | cons a l ih =>
    intro buf
    rw [List.foldl_cons, ih, int8x4_invocation_length]

theorem int8x4_foldl_getD (w h c n : Nat) (t_inp : List Nat) :
    ∀ (l : List Nat) (buf : List Nat) (k : Nat), k ∈ l →
      k < buf.length → k < (w * h * c * n + 3) / 4 →
      ((l.foldl (int8x4_buffer_to_nchw_invocation w h c n t_inp) buf).getD
        k 0) = int8x4_buffer_to_nchw_word w h c n t_inp k := by
  intro l
  induction l with
  | nil => intro buf k hk; cases hk
  | cons a l ih =>
    intro buf k hk hlen hgrid
    rw [List.foldl_cons]
    by_cases hmem : k ∈ l
    · exact ih _ k hmem (by rw [int8x4_invocation_length]; exact hlen) hgrid
    · have hak : k = a := by
        rcases List.mem_cons.mp hk with heq | hmem2
        · exact heq
        · exact absurd hmem2 hmem
      subst hak
      rw [int8x4_foldl_getD_not_mem w h c n t_inp l _ k hmem]
      unfold int8x4_buffer_to_nchw_invocation
      rw [if_neg (by omega), List.getD_eq_getElem?_getD,
        List.getElem?_set_self hlen, Option.getD_some]

/-- C1: for every tensor shape and every staging buffer of int8 bytes,
including element counts not divisible by 4, each logical NCHW byte read
back by a full dispatch of the `int8x4_buffer_to_nchw` kernel from the
packed int8x4 buffer produced by the `nchw_to_int8x4_buffer` conversion
equals the original staging byte; padding lanes are never consulted. -/
theorem int8x4_dispatch_roundtrip (w h c n : Nat) (x nchw_out : List Nat)
    (_hlen : x.length = w * h * c * n) (hx : ∀ b ∈ x, b < 256)
    (hout : nchw_out.length = (w * h * c * n + 3) / 4)
    (i : Nat) (hi : i < w * h * c * n) :
    ((int8x4_buffer_to_nchw_dispatch w h c n
        (nchw_to_int8x4_buffer x ((w * h * c * n + 3) / 4))
        nchw_out).getD (i / 4) 0 >>> ((i % 4) * 8)) &&& 0xFF =
      x.getD i 0 := by
  unfold int8x4_buffer_to_nchw_dispatch
  have hk : i / 4 < (w * h * c * n + 3) / 4 := by omega
  rw [int8x4_foldl_getD w h c n _ _ nchw_out (i / 4)
    (List.mem_range.mpr hk) (by omega) hk]
  have hword := int8x4_unpack_pack_byte w h c n x nchw_out hx hout i hi
  unfold int8x4_buffer_to_nchw_invocation at hword
  rw [if_neg (by omega), List.getD_eq_getElem?_getD,
    List.getElem?_set_self (by omega), Option.getD_some] at hword
  rw [hword]
  rfl

/-- C1 witness: the spec's own scenario, 5 int8 values packed into 2 int32
slots and read back. -/
theorem int8x4_dispatch_roundtrip_witness :
    ((int8x4_buffer_to_nchw_dispatch 5 1 1 1
        (nchw_to_int8x4_buffer [1, 2, 3, 4, 5] 2)
        [0, 0]).getD (4 / 4) 0 >>> ((4 % 4) * 8)) &&& 0xFF =
      [1, 2, 3, 4, 5].getD 4 0 :=
  int8x4_dispatch_roundtrip 5 1 1 1 [1, 2, 3, 4, 5] [0, 0] (by decide)
    (by decide) (by decide) 4 (by decide)

/-! ## Broadcast clamp correctness (where operator, buffer variant) -/

theorem numel_cons (s : Nat) (rest : List Nat) :
    numel (s :: rest) = s * numel rest := by
  simp [numel]

/-- Under broadcast compatibility (each operand dimension is 1 or equal to
the output dimension), the shader's min-clamp of an in-range output
coordinate coincides with the spec's broadcast read (size-1 dims read
index 0). -/
theorem clamp_eq_broadcast {outs ops : List Nat}
    (hcompat : List.Forall₂ (fun so s => s = 1 ∨ s = so) outs ops) :
    ∀ i, i < numel outs →
      clamp_tensor_idx ops (linear_idx_to_tensor_idx outs i) =
        broadcast_tensor_idx ops (linear_idx_to_tensor_idx outs i) := by
  induction hcompat with
  | nil => intro i _; rfl
  | @cons a b l₁ l₂ h₁ h₂ ih =>
    intro i hi
    rw [numel_cons] at hi
    have ha : 0 < a := by
      rcases Nat.eq_zero_or_pos a with h0 | h0
      · rw [h0, Nat.zero_mul] at hi; omega
      · exact h0
    simp only [linear_idx_to_tensor_idx, clamp_tensor_idx,
      broadcast_tensor_idx, List.zipWith_cons_cons]
    have hmod : i % a < a := Nat.mod_lt i ha
    congr 1
    · rcases h₁ with hb1 | hba
      · subst hb1; simp
      · subst hba
        by_cases h1 : b = 1
        · subst h1; simp
        · rw [if_neg h1]; omega
    · have hdiv : i / a < numel l₁ := by
        rcases Nat.eq_zero_or_pos (numel l₁) with hz | hp
        · rw [hz, Nat.mul_zero] at hi; omega
        · have hi' : i < numel l₁ * a := by rw [Nat.mul_comm]; exact hi
          exact (Nat.div_lt_iff_lt_mul ha).mpr hi'
      exact ih (i / a) hdiv

/-- C2: for every logical output coordinate of the buffer where kernel, the
written output element equals the self element at the broadcast-clamped
coordinate when the condition element there is non-zero (truthy, any
non-zero value), else the other element, as given by the reference
semantics `where_ref_elem` written from the spec. -/
theorem where_buffer_matches_ref
    (outSizes condSizes selfSizes otherSizes : List Nat)
    (t_condition : List Nat) (t_self t_other t_out : List Int)
    (hcond : List.Forall₂ (fun so s => s = 1 ∨ s = so) outSizes condSizes)
    (hself : List.Forall₂ (fun so s => s = 1 ∨ s = so) outSizes selfSizes)
    (hother : List.Forall₂ (fun so s => s = 1 ∨ s = so) outSizes otherSizes)
    (i : Nat) (hi : i < numel outSizes)
    (hlen : t_out.length = numel outSizes) :
    (where_buffer_invocation outSizes condSizes selfSizes otherSizes
        t_condition t_self t_other t_out i).getD i 0 =
      where_ref_elem outSizes condSizes selfSizes otherSizes
        t_condition t_self t_other i := by
  have hoob : out_of_bounds_linear i outSizes = false := by
    simp only [out_of_bounds_linear, decide_eq_false_iff_not]
    omega
  simp only [where_buffer_invocation, where_ref_elem, hoob, Bool.false_eq_true,
    if_false]
  rw [clamp_eq_broadcast hcond i hi, clamp_eq_broadcast hself i hi,
    clamp_eq_broadcast hother i hi]
  by_cases hc : t_condition.getD
      (tensor_idx_to_linear_idx condSizes
        (broadcast_tensor_idx condSizes
          (linear_idx_to_tensor_idx outSizes i))) 0 = 0
  · rw [if_neg (by omega), if_neg (by omega)]
    rw [List.getD_eq_getElem?_getD, List.getElem?_set_self (by omega),
      Option.getD_some]
  · rw [if_pos (by omega), if_pos hc]
    rw [List.getD_eq_getElem?_getD, List.getElem?_set_self (by omega),
      Option.getD_some]

/-- C2 witness: a 4-element where with a condition value of 7 (neither 0
nor 1) still selects the self element. -/
theorem where_buffer_matches_ref_witness :
    (where_buffer_invocation [4] [4] [4] [4] [7, 0, 7, 0] [1, 2, 3, 4]
        [10, 20, 30, 40] [0, 0, 0, 0] 0).getD 0 0 =
      where_ref_elem [4] [4] [4] [4] [7, 0, 7, 0] [1, 2, 3, 4]
        [10, 20, 30, 40] 0 :=
  where_buffer_matches_ref [4] [4] [4] [4] [7, 0, 7, 0] [1, 2, 3, 4]
    [10, 20, 30, 40] [0, 0, 0, 0]
    (by constructor; · right; rfl
        · constructor)
    (by constructor; · right; rfl
        · constructor)
    (by constructor; · right; rfl
        · constructor)
    0 (by decide) (by decide)

/-- C3: the broadcast clamp maps each dimension `d` of an index to
`min(idx[d], size[d]-1)`, and in the spec's scenario a `[1]`-shaped truthy
condition broadcasts across all 4 output elements, yielding
`out = [5,6,7,8]`. -/
theorem clamp_is_min_and_broadcast_scenario :
    (∀ (sizes idx : List Nat) (d : Nat), d < idx.length →
      d < sizes.length →
      (clamp_tensor_idx sizes idx).getD d 0 =
        min (idx.getD d 0) (sizes.getD d 0 - 1)) ∧
    where_buffer_dispatch [4] [1] [4] [4] [1] [5, 6, 7, 8] [0, 0, 0, 0]
      [0, 0, 0, 0] 4 = [5, 6, 7, 8] := by
  constructor
  · intro sizes idx d hd hs
    unfold clamp_tensor_idx
    have hlen : d < (List.zipWith (fun x s => min x (s - 1)) idx sizes).length := by
      rw [List.length_zipWith]; omega
    rw [List.getD_eq_getElem?_getD, List.getElem?_eq_getElem hlen,
      Option.getD_some, List.getElem_zipWith,
      List.getD_eq_getElem?_getD, List.getElem?_eq_getElem hd,
      List.getD_eq_getElem?_getD, List.getElem?_eq_getElem hs]
    rfl
  · decide

/-- C3 witness: the clamp computed at a concrete dimension. -/
theorem clamp_is_min_witness :
    (clamp_tensor_idx [3, 1] [5, 2]).getD 0 0 =
      min ([5, 2].getD 0 0) ([3, 1].getD 0 0 - 1) :=
  clamp_is_min_and_broadcast_scenario.1 [3, 1] [5, 2] 0 (by decide) (by decide)

/-! ## Bounds checks and write disjointness -/

/-- C6: an invocation whose global index fails the entry bounds check
returns immediately and leaves the output buffer untouched, in both the
buffer where kernel and the int8x4 download kernel; an over-provisioned
grid therefore performs no partial writes. -/
theorem oob_invocations_write_nothing :
    (∀ (outSizes condSizes selfSizes otherSizes : List Nat)
      (t_condition : List Nat) (t_self t_other t_out : List Int) (i : Nat),
      numel outSizes ≤ i →
      where_buffer_invocation outSizes condSizes selfSizes otherSizes
        t_condition t_self t_other t_out i = t_out) ∧
    (∀ (w h c n : Nat) (t_inp nchw_out : List Nat) (k : Nat),
      (w * h * c * n + 3) / 4 ≤ k →
      int8x4_buffer_to_nchw_invocation w h c n t_inp nchw_out k =
        nchw_out) := by
  constructor
  · intro outSizes condSizes selfSizes otherSizes t_condition t_self t_other
      t_out i hi
    unfold where_buffer_invocation
    rw [if_pos]
    simp only [out_of_bounds_linear, decide_eq_true_eq]
    omega
  · intro w h c n t_inp nchw_out k hk
    unfold int8x4_buffer_to_nchw_invocation
    rw [if_pos hk]

/-- C6 witness: concrete out-of-range invocations of both kernels. -/
theorem oob_invocations_write_nothing_witness :
    where_buffer_invocation [2] [2] [2] [2] [1, 1] [1, 2] [3, 4] [0, 0] 5 =
      [0, 0] ∧
    int8x4_buffer_to_nchw_invocation 2 1 1 1 [7] [0] 3 = [0] :=
  ⟨oob_invocations_write_nothing.1 [2] [2] [2] [2] [1, 1] [1, 2] [3, 4]
      [0, 0] 5 (by decide),
    oob_invocations_write_nothing.2 2 1 1 1 [7] [0] 3 (by decide)⟩

/-- C9: within one dispatch, an invocation of the buffer where kernel or of
the int8x4 download kernel writes only its own output address (equal to its
global invocation index), so distinct invocations never write the same
address. -/
theorem disjoint_output_addresses :
    (∀ (outSizes condSizes selfSizes otherSizes : List Nat)
      (t_condition : List Nat) (t_self t_other t_out : List Int) (i j : Nat),
      j ≠ i →
      (where_buffer_invocation outSizes condSizes selfSizes otherSizes
        t_condition t_self t_other t_out i).getD j 0 = t_out.getD j 0) ∧
    (∀ (w h c n : Nat) (t_inp nchw_out : List Nat) (k j : Nat), j ≠ k →
      (int8x4_buffer_to_nchw_invocation w h c n t_inp nchw_out k).getD j 0 =
        nchw_out.getD j 0) := by
  constructor
  · intro outSizes condSizes selfSizes otherSizes t_condition t_self t_other
      t_out i j hji
    unfold where_buffer_invocation
    split
    · rfl
    · dsimp only
      split <;>
        rw [List.getD_eq_getElem?_getD,
          List.getElem?_set_ne (fun heq => hji heq.symm),
          List.getD_eq_getElem?_getD]
  · intro w h c n t_inp nchw_out k j hjk
    exact int8x4_invocation_getD_ne w h c n t_inp nchw_out
      (fun heq => hjk heq.symm)

/-- C9 witness: concrete neighbouring invocations leave each other's
addresses unchanged. -/
theorem disjoint_output_addresses_witness :
    (where_buffer_invocation [2] [2] [2] [2] [1, 0] [1, 2] [3, 4] [9, 9]
        0).getD 1 0 = [(9 : Int), 9].getD 1 0 ∧
    (int8x4_buffer_to_nchw_invocation 2 1 1 1 [513] [0] 0).getD 1 0 =
      [0].getD 1 0 :=
  ⟨disjoint_output_addresses.1 [2] [2] [2] [2] [1, 0] [1, 2] [3, 4] [9, 9]
      0 1 (by decide),
    disjoint_output_addresses.2 2 1 1 1 [513] [0] 0 1 (by decide)⟩

/-! ## Resize callback and builder validation -/

/-- Whether graph construction succeeded: a failed `VK_CHECK_COND` aborts
the build with no partial graph. -/
def exceptOk {ε α : Type} : Except ε α → Bool
  | .ok _ => true
  | .error _ => false

/-- C4: after the where node's resize callback runs, the output tensor's
shape equals the self operand's shape, for every prior output shape. -/
theorem resize_where_forces_self_shape (g : ComputeGraph) (out self : Nat)
    (hout : out < g.tensors.length) :
    sizes_of (resize_where_node g out self) out = sizes_of g self := by
  unfold resize_where_node virtual_resize
  cases hcase : g.tensors[out]? with
  | none =>
    rw [List.getElem?_eq_getElem hout] at hcase
    exact Option.noConfusion hcase
  | some t =>
    simp only [sizes_of]
    rw [List.getD_eq_getElem?_getD, List.getElem?_set_self hout,
      Option.getD_some]

/-- C4 witness: a graph whose output tensor starts with shape `[2,2]` is
forced to the self operand's shape `[3]`. -/
theorem resize_where_forces_self_shape_witness :
    sizes_of (resize_where_node
      { tensors := [{ sizes := [2, 2], dtype := .kFloat, data := [] },
                    { sizes := [3], dtype := .kFloat, data := [7] }],
        prepackNodes := [], executeNodes := [] } 0 1) 0 =
      sizes_of
      { tensors := [{ sizes := [2, 2], dtype := .kFloat, data := [] },
                    { sizes := [3], dtype := .kFloat, data := [7] }],
        prepackNodes := [], executeNodes := [] } 1 :=
  resize_where_forces_self_shape _ 0 1 (by decide)

/-- C8: the where resize callback mutates only the output tensor's shape
metadata: every other tensor record is unchanged, the output tensor's
contents and dtype are unchanged, and both node lists are unchanged. -/
theorem resize_where_frame (g : ComputeGraph) (out self : Nat) :
    (resize_where_node g out self).prepackNodes = g.prepackNodes ∧
    (resize_where_node g out self).executeNodes = g.executeNodes ∧
    (∀ r, r ≠ out →
      (resize_where_node g out self).tensors.getD r defaultTensor =
        g.tensors.getD r defaultTensor) ∧
    (∀ r,
      ((resize_where_node g out self).tensors.getD r defaultTensor).data =
        (g.tensors.getD r defaultTensor).data ∧
      ((resize_where_node g out self).tensors.getD r defaultTensor).dtype =
        (g.tensors.getD r defaultTensor).dtype) := by
  unfold resize_where_node virtual_resize
  cases hcase : g.tensors[out]? with
  | none => exact ⟨rfl, rfl, fun r _ => rfl, fun r => ⟨rfl, rfl⟩⟩
  | some t =>
    have hlt : out < g.tensors.length := by
      rcases List.getElem?_eq_some_iff.mp hcase with ⟨hl, _⟩
      exact hl
    refine ⟨rfl, rfl, fun r hr => ?_, fun r => ?_⟩
    · simp only
      rw [List.getD_eq_getElem?_getD,
        List.getElem?_set_ne (fun heq => hr heq.symm),
        List.getD_eq_getElem?_getD]
    · by_cases hr : r = out
      · subst hr
        have ht : g.tensors.getD r defaultTensor = t := by
          rw [List.getD_eq_getElem?_getD, hcase, Option.getD_some]
        simp only
        rw [List.getD_eq_getElem?_getD, List.getElem?_set_self hlt,
          Option.getD_some, ht]
        exact ⟨rfl, rfl⟩
      · simp only
        rw [List.getD_eq_getElem?_getD,
          List.getElem?_set_ne (fun heq => hr heq.symm),
          List.getD_eq_getElem?_getD]
        exact ⟨rfl, rfl⟩

/-- C8 witness: the frame property at a concrete graph and reference. -/
theorem resize_where_frame_witness :
    (resize_where_node
      { tensors := [{ sizes := [2], dtype := .kFloat, data := [1, 2] },
                    { sizes := [3], dtype := .kChar, data := [7] }],
        prepackNodes := [], executeNodes := [] } 0 1).tensors.getD 1
        defaultTensor =
      ({ tensors := [{ sizes := [2], dtype := .kFloat, data := [1, 2] },
                     { sizes := [3], dtype := .kChar, data := [7] }],
         prepackNodes := [],
         executeNodes := [] } : ComputeGraph).tensors.getD 1 defaultTensor :=
  (resize_where_frame _ 0 1).2.2.1 1 (by decide)

/-- C5: each int8x4 staging node builder fails at graph-construction time
whenever the target tensor's dtype is not the packed int8 kind or its rank
exceeds 4; the failed check aborts construction before any node is
appended. -/
theorem int8x4_builders_reject_invalid (g : ComputeGraph) (a t : Nat)
    (hbad : dtype_of g t ≠ VkDtype.kInt8x4 ∨ 4 < dim_of g t) :
    exceptOk (add_prepack_int8x4_buffer_node g a t) = false ∧
    exceptOk (add_staging_to_int8x4_buffer_node g a t) = false ∧
    exceptOk (add_int8x4_buffer_to_staging_node g t a) = false := by
  unfold add_prepack_int8x4_buffer_node add_staging_to_int8x4_buffer_node
    add_int8x4_buffer_to_staging_node
  refine ⟨?_, ?_, ?_⟩ <;>
    · split
      · rfl
      · split
        · rfl
        · rename_i h1 h2
          exfalso
          rcases hbad with hb | hb
          · exact h1 hb
          · exact h2 hb

/-- C5 witness: the spec's scenario, a rank-5 tensor with packed int8
dtype is rejected by all three builders at construction time. -/
theorem int8x4_builders_reject_invalid_witness :
    exceptOk (add_prepack_int8x4_buffer_node
      { tensors := [{ sizes := [1, 1, 1, 1, 1], dtype := .kInt8x4,
                      data := [] }],
        prepackNodes := [], executeNodes := [] } 1 0) = false ∧
    exceptOk (add_staging_to_int8x4_buffer_node
      { tensors := [{ sizes := [1, 1, 1, 1, 1], dtype := .kInt8x4,
                      data := [] }],
        prepackNodes := [], executeNodes := [] } 1 0) = false ∧
    exceptOk (add_int8x4_buffer_to_staging_node
      { tensors := [{ sizes := [1, 1, 1, 1, 1], dtype := .kInt8x4,
                      data := [] }],
        prepackNodes := [], executeNodes := [] } 0 1) = false :=
  int8x4_builders_reject_invalid _ 1 0 (Or.inr (by decide))

/-! ## Texture variant: lane loop lemmas -/

theorem set_getD_self : ∀ (l : List Nat) (n : Nat),
    l.set n (l.getD n 0 + 0) = l := by
  intro l
  induction l with
  | nil => intro n; rfl
  | cons a l ih =>
    intro n
    cases n with
    | zero => simp [List.set, List.getD]
    | succ n => simp only [List.set, List.getD_cons_succ, ih]

theorem getD_replicate_zero (k : Nat) : ∀ ℓ, (List.replicate k (0 : Int)).getD ℓ 0 = 0 := by
  intro ℓ
  rw [List.getD_eq_getElem?_getD]
  rcases Nat.lt_or_ge ℓ k with h | h
  · rw [List.getElem?_eq_getElem (by simpa using h)]
    simp
  · rw [List.getElem?_eq_none (by simpa using h)]
    rfl

theorem where_texture_go_length (outp condp selfp otherp : TextureMetadata)
    (tc : Nat → Nat → Nat → List Nat) (ts tq : Nat → Nat → Nat → List Int) :
    ∀ (fuel comp : Nat) (tidx : List Nat) (acc : List Int),
      (where_texture_go outp condp selfp otherp tc ts tq
        fuel comp tidx acc).length = acc.length := by
  intro fuel
  induction fuel with
  | zero => intro comp tidx acc; rfl
  | succ fuel ih =>
    intro comp tidx acc
    rw [where_texture_go, ih, List.length_set]

theorem where_texture_go_untouched (outp condp selfp otherp : TextureMetadata)
    (tc : Nat → Nat → Nat → List Nat) (ts tq : Nat → Nat → Nat → List Int) :
    ∀ (fuel comp : Nat) (tidx : List Nat) (acc : List Int) (ℓ : Nat),
      (ℓ < comp ∨ comp + fuel ≤ ℓ) →
      (where_texture_go outp condp selfp otherp tc ts tq
        fuel comp tidx acc).getD ℓ 0 = acc.getD ℓ 0 := by
  intro fuel
  induction fuel with
  | zero => intro comp tidx acc ℓ _; rfl
  | succ fuel ih =>
    intro comp tidx acc ℓ hl
    rw [where_texture_go, ih _ _ _ ℓ (by omega)]
    rw [List.getD_eq_getElem?_getD, List.getElem?_set_ne (by omega),
      List.getD_eq_getElem?_getD]

theorem where_texture_go_lane (outp condp selfp otherp : TextureMetadata)
    (tc : Nat → Nat → Nat → List Nat) (ts tq : Nat → Nat → Nat → List Int) :
    ∀ (fuel comp : Nat) (tidx : List Nat) (acc : List Int) (ℓ : Nat),
      comp ≤ ℓ → ℓ < comp + fuel → ℓ < acc.length →
      outp.packed_dim < tidx.length →
      (where_texture_go outp condp selfp otherp tc ts tq
        fuel comp tidx acc).getD ℓ 0 =
        where_texture_lane_value condp selfp otherp tc ts tq
          (tidx.set outp.packed_dim
            (tidx.getD outp.packed_dim 0 + (ℓ - comp))) := by
  intro fuel
  induction fuel with
  | zero => intro comp tidx acc ℓ _ h _ _; omega
  | succ fuel ih =>
    intro comp tidx acc ℓ h1 h2 h3 h4
    rw [where_texture_go]
    rcases Nat.eq_or_lt_of_le h1 with heq | hlt
    · subst heq
      rw [where_texture_go_untouched outp condp selfp otherp tc ts tq
        fuel (comp + 1) _ _ comp (Or.inl (by omega))]
      rw [List.getD_eq_getElem?_getD,
        List.getElem?_set_self (by simpa using h3), Option.getD_some,
        Nat.sub_self, set_getD_self]
    · have hpd' : outp.packed_dim <
          (tidx.set outp.packed_dim
            (tidx.getD outp.packed_dim 0 + 1)).length := by
        rw [List.length_set]; exact h4
      rw [ih (comp + 1) _ _ ℓ (by omega) (by omega)
        (by rw [List.length_set]; exact h3) hpd']
      have hget : (tidx.set outp.packed_dim
          (tidx.getD outp.packed_dim 0 + 1)).getD outp.packed_dim 0 =
          tidx.getD outp.packed_dim 0 + 1 := by
        rw [List.getD_eq_getElem?_getD, List.getElem?_set_self h4,
          Option.getD_some]
      rw [hget, List.set_set]
      have harith : tidx.getD outp.packed_dim 0 + 1 + (ℓ - (comp + 1)) =
          tidx.getD outp.packed_dim 0 + (ℓ - comp) := by omega
      rw [harith]

/-- C7: the texture where kernel iterates over at most 4 packed-dimension
lanes, stopping at `limit = min(4, size[packed_dim] - coord[packed_dim])`,
and the value of each lane `ℓ < limit` is computed with the broadcast clamp
applied independently to that lane's own tensor index (the base index
advanced by `ℓ` along the packed dimension). -/
theorem where_texture_lanes_clamped_per_lane
    (outp condp selfp otherp : TextureMetadata)
    (tc : Nat → Nat → Nat → List Nat) (ts tq : Nat → Nat → Nat → List Int)
    (pos : Nat × Nat × Nat) (texel : List Int)
    (hpd : outp.packed_dim < 4)
    (hmain : where_texture_invocation outp condp selfp otherp tc ts tq pos =
      some (pos, texel)) :
    ∀ ℓ, ℓ < min 4 (outp.sizes.getD outp.packed_dim 0 -
        (texture_pos_to_tensor4d_idx_simple outp pos).getD
          outp.packed_dim 0) →
      texel.getD ℓ 0 =
        where_texture_lane_value condp selfp otherp tc ts tq
          ((texture_pos_to_tensor4d_idx_simple outp pos).set outp.packed_dim
            ((texture_pos_to_tensor4d_idx_simple outp pos).getD
              outp.packed_dim 0 + ℓ)) := by
  intro ℓ hℓ
  unfold where_texture_invocation at hmain
  by_cases hoob : out_of_bounds_pos pos outp = true
  · rw [if_pos hoob] at hmain
    exact Option.noConfusion hmain
  · rw [if_neg hoob] at hmain
    have htexel2 : texel = where_texture_go outp condp selfp otherp tc ts tq
        (min 4 (outp.sizes.getD outp.packed_dim 0 -
          (texture_pos_to_tensor4d_idx_simple outp pos).getD
            outp.packed_dim 0)) 0
        (texture_pos_to_tensor4d_idx_simple outp pos)
        (List.replicate 4 0) := by
      have := hmain
      injection this with hpair
      injection hpair with h1 h2
      exact h2.symm
    rw [htexel2]
    have hlen : (texture_pos_to_tensor4d_idx_simple outp pos).length = 4 := by
      unfold texture_pos_to_tensor4d_idx_simple
      rw [List.length_set]
      rfl
    have := where_texture_go_lane outp condp selfp otherp tc ts tq
      (min 4 (outp.sizes.getD outp.packed_dim 0 -
        (texture_pos_to_tensor4d_idx_simple outp pos).getD
          outp.packed_dim 0)) 0
      (texture_pos_to_tensor4d_idx_simple outp pos)
      (List.replicate 4 0) ℓ (by omega) (by omega)
      (by rw [List.length_replicate]; omega) (by rw [hlen]; exact hpd)
    rw [this, Nat.sub_zero]

/-- C7 witness: output size 6 along the packed dim at texel group 1 gives
limit 2; lane 1 is computed from the base index advanced by 1. -/
theorem where_texture_lanes_witness :
    ([5, 6, 0, 0] : List Int).getD 1 0 =
      where_texture_lane_value ⟨[6, 1, 1, 1], 0⟩ ⟨[6, 1, 1, 1], 0⟩
        ⟨[6, 1, 1, 1], 0⟩
        (fun x _ _ => if x = 0 then [1, 0, 1, 0] else [1, 1, 0, 0])
        (fun x _ _ => if x = 0 then [1, 2, 3, 4] else [5, 6, 7, 8])
        (fun x _ _ => if x = 0 then [10, 20, 30, 40] else [50, 60, 70, 80])
        ((texture_pos_to_tensor4d_idx_simple ⟨[6, 1, 1, 1], 0⟩
          (1, 0, 0)).set 0
          ((texture_pos_to_tensor4d_idx_simple ⟨[6, 1, 1, 1], 0⟩
            (1, 0, 0)).getD 0 0 + 1)) :=
  where_texture_lanes_clamped_per_lane ⟨[6, 1, 1, 1], 0⟩ ⟨[6, 1, 1, 1], 0⟩
    ⟨[6, 1, 1, 1], 0⟩ ⟨[6, 1, 1, 1], 0⟩
    (fun x _ _ => if x = 0 then [1, 0, 1, 0] else [1, 1, 0, 0])
    (fun x _ _ => if x = 0 then [1, 2, 3, 4] else [5, 6, 7, 8])
    (fun x _ _ => if x = 0 then [10, 20, 30, 40] else [50, 60, 70, 80])
    (1, 0, 0) [5, 6, 0, 0] (by decide) (by decide) 1 (by decide)

/-- C10: the texture where kernel writes the output texel whole: the texel
is a full 4-component vector initialized to zero, and every component at or
beyond `limit` is deterministically zero. -/
theorem where_texture_padding_lanes_zero
    (outp condp selfp otherp : TextureMetadata)
    (tc : Nat → Nat → Nat → List Nat) (ts tq : Nat → Nat → Nat → List Int)
    (pos : Nat × Nat × Nat) (texel : List Int)
    (hmain : where_texture_invocation outp condp selfp otherp tc ts tq pos =
      some (pos, texel)) :
    texel.length = 4 ∧
    ∀ ℓ, min 4 (outp.sizes.getD outp.packed_dim 0 -
        (texture_pos_to_tensor4d_idx_simple outp pos).getD
          outp.packed_dim 0) ≤ ℓ →
      texel.getD ℓ 0 = 0 := by
  unfold where_texture_invocation at hmain
  by_cases hoob : out_of_bounds_pos pos outp = true
  · rw [if_pos hoob] at hmain
    exact Option.noConfusion hmain
  · rw [if_neg hoob] at hmain
    have htexel : texel = where_texture_go outp condp selfp otherp tc ts tq
        (min 4 (outp.sizes.getD outp.packed_dim 0 -
          (texture_pos_to_tensor4d_idx_simple outp pos).getD
            outp.packed_dim 0)) 0
        (texture_pos_to_tensor4d_idx_simple outp pos)
        (List.replicate 4 0) := by
      injection hmain with hpair
      injection hpair with h1 h2
      exact h2.symm
    subst htexel
    constructor
    · rw [where_texture_go_length, List.length_replicate]
    · intro ℓ hℓ
      rw [where_texture_go_untouched outp condp selfp otherp tc ts tq
        _ 0 _ _ ℓ (Or.inr (by omega)), getD_replicate_zero]

/-- C10 witness: at limit 2, lanes 2 and 3 of the stored texel are zero. -/
theorem where_texture_padding_witness :
    ([5, 6, 0, 0] : List Int).length = 4 ∧
    ([5, 6, 0, 0] : List Int).getD 2 0 = 0 :=
  have h := where_texture_padding_lanes_zero ⟨[6, 1, 1, 1], 0⟩
    ⟨[6, 1, 1, 1], 0⟩ ⟨[6, 1, 1, 1], 0⟩ ⟨[6, 1, 1, 1], 0⟩
    (fun x _ _ => if x = 0 then [1, 0, 1, 0] else [1, 1, 0, 0])
    (fun x _ _ => if x = 0 then [1, 2, 3, 4] else [5, 6, 7, 8])
    (fun x _ _ => if x = 0 then [10, 20, 30, 40] else [50, 60, 70, 80])
    (1, 0, 0) [5, 6, 0, 0] (by decide)
  ⟨h.1, h.2 2 (by decide)⟩

end VkCompute
